import Mathlib

/-!
Verification development for the infinity engine asset decoder.

The Rust sources are shallowly embedded: bytes are natural numbers below 256,
byte buffers are lists, the Rust type std.io.Cursor over a byte vector is a
record carrying the full buffer, the current position and the cached suffix of
the buffer at that position, and every fallible Rust function returns an
Except value.  Strings read from game files are modelled as the raw byte
sequences they decode to; UTF-8 decoding is the identity on such bytes (exact
for ASCII data, which is all the data the game formats carry in the fields the
claims mention), and removal of the NUL character corresponds exactly to
removal of the zero byte.  Machine integers are embedded as Nat; the sources
read unsigned little-endian fields and never rely on wrap-around in the code
paths modelled here, so no masking is required except where noted.
-/

/-- Cursor over an in-memory byte buffer, modelling std.io.Cursor of Vec u8.
The field rest always equals data.drop pos; it is maintained by the smart
constructors below so that reads are constant-time in the embedding. -/
structure Cursor where
  data : List Nat
  pos : Nat
  rest : List Nat
deriving Repr, DecidableEq

/-- Fresh cursor at position zero, modelling Cursor.new. -/
def Cursor.new (data : List Nat) : Cursor := ⟨data, 0, data⟩

/-- Absolute positioning, modelling Cursor.set_position. -/
def Cursor.setPosition (c : Cursor) (p : Nat) : Cursor := ⟨c.data, p, c.data.drop p⟩

/-- Current position, modelling Cursor.position. -/
def Cursor.position (c : Cursor) : Nat := c.pos

/-- Read one byte and advance, modelling read_u8. Fails at end of buffer. -/
def Cursor.readU8 : Cursor → Except String (Nat × Cursor)
  | ⟨_, _, []⟩ => .error ("failed to fill whole buffer")
  | ⟨data, pos, b :: t⟩ => .ok (b, ⟨data, pos + 1, t⟩)

/-- Read a little-endian 16-bit value, modelling read_u16 LittleEndian. -/
def Cursor.readU16 (c : Cursor) : Except String (Nat × Cursor) := do
  let (b0, c) ← c.readU8
  let (b1, c) ← c.readU8
  .ok (b0 + 256 * b1, c)

/-- Read a little-endian 32-bit value, modelling read_u32 LittleEndian. -/
def Cursor.readU32 (c : Cursor) : Except String (Nat × Cursor) := do
  let (b0, c) ← c.readU8
  let (b1, c) ← c.readU8
  let (b2, c) ← c.readU8
  let (b3, c) ← c.readU8
  .ok (b0 + 256 * b1 + 65536 * b2 + 16777216 * b3, c)

/-- Read exactly n bytes by repeated read_u8, modelling the readBytes helper
of src/bytes.rs (and read_exact, which consumes the same bytes and fails on
the same inputs). -/
def Cursor.readBytes (c : Cursor) : Nat → Except String (List Nat × Cursor)
  | 0 => .ok ([], c)
  | n + 1 => do
    let (b, c1) ← c.readU8
    let (bs, c2) ← c1.readBytes n
    .ok (b :: bs, c2)

/-- Conversion of a byte buffer to a string, modelling the parseString helper
of src/bytes.rs: UTF-8 decode (lossy on invalid sequences) followed by
String.replace of the NUL character with the empty string.  On the byte level
this removes every zero byte and keeps every other byte, in order. -/
def parseString (bytes : List Nat) : List Nat := bytes.filter (fun b => b ≠ 0)

/-- Fill loop of the readToReal helper of src/bytes.rs: copy bytes from the
read buffer into the zero-initialised real buffer, in order, stopping at the
first zero byte; the remaining real bytes keep their current (zero) values. -/
def readToRealFill (read real : List Nat) : List Nat :=
  match read, real with
  | b :: rs, _ :: ds => if b > 0 then b :: readToRealFill rs ds else 0 :: ds
  | _, _ => real

/-- Helper readToReal of src/bytes.rs: checks the two buffers have equal
length, then runs the fill loop.  The readString helper calls it on buffers of
equal length, so the error branch is unreachable there. -/
def readToReal (read real : List Nat) : Except String (List Nat) :=
  if read.length ≠ real.length then .error ("byte arrays are not the same length")
  else .ok (readToRealFill read real)

/-- Fixed-length string read, modelling the readString helper of
src/bytes.rs: read exactly n bytes, compute the NUL-truncated copy via
readToReal into a zero-initialised buffer, then return parseString of the
bytes that were read.  Note that the source passes the original bytes, not
the truncated copy, to parseString; the truncated copy is discarded. -/
def Cursor.readString (c : Cursor) (n : Nat) : Except String (List Nat × Cursor) := do
  let (bytes, c1) ← c.readBytes n
  let _real ← readToReal bytes (List.replicate n 0)
  .ok (parseString bytes, c1)

/-- Eight-byte RESREF read, modelling readResRef of src/bytes.rs. -/
def Cursor.readResRef (c : Cursor) : Except String (List Nat × Cursor) :=
  c.readString 8

/-- Thirty-two byte name read, modelling readName of src/bytes.rs. -/
def Cursor.readName (c : Cursor) : Except String (List Nat × Cursor) :=
  c.readString 32

/-- ASCII byte sequence of a Lean string literal, used to state concrete
inputs readably. -/
def strBytes (s : String) : List Nat := s.data.map Char.toNat

/-- Bitwise field extraction of src/bits.rs: shift the value right, then mask
to bitIndex bits.  The Rust operates on u64; every call site stays far below
2 to the 64, so Nat is exact here. -/
def ReadValue (value bitIndex shift : Nat) : Nat :=
  (value >>> shift) &&& ((1 <<< bitIndex) - 1)

/-- Single-bit test of src/bits.rs. -/
def ReadBit (value bitIndex : Nat) : Bool :=
  let check := 1 <<< bitIndex
  (value &&& check) = check

/-- RGBA color record of src/types/util/color.rs. -/
structure Color where
  red : Nat
  green : Nat
  blue : Nat
  alpha : Nat
deriving Repr, DecidableEq

/-- Byte sequence of a color in field order, modelling Color.bytes. -/
def Color.bytes (c : Color) : List Nat := [c.red, c.green, c.blue, c.alpha]

/-- Construction from a 32-bit value in BGRA byte order, modelling
Color.fromBGRA: blue from bits 24 and up, green from bits 16 and up, red from
bits 8 and up, alpha from the low bits, eight bits each. -/
def Color.fromBGRA (value : Nat) : Color :=
  let blue := ReadValue value 8 24
  let green := ReadValue value 8 16
  let red := ReadValue value 8 8
  let alpha := ReadValue value 8 0
  { red := red, green := green, blue := blue, alpha := alpha }

/-- Conversion back to a 32-bit BGRA value, modelling Color.intoBGRA. -/
def Color.intoBGRA (c : Color) : Nat :=
  (c.red <<< 8) ||| (c.green <<< 16) ||| (c.blue <<< 24) ||| c.alpha

/-- Reading a color as four consecutive bytes, modelling the Readable
implementation of Color. -/
def Color.fromCursor (c : Cursor) : Except String (Color × Cursor) := do
  let (red, c) ← c.readU8
  let (green, c) ← c.readU8
  let (blue, c) ← c.readU8
  let (alpha, c) ← c.readU8
  .ok ({ red := red, green := green, blue := blue, alpha := alpha }, c)

/-- Resource entry of a KEY file, per src/types/key.rs: RESREF name, 16-bit
type tag and packed 32-bit locator. -/
structure ResourceEntry where
  name : List Nat
  rtype : Nat
  locator : Nat
deriving Repr, DecidableEq

/-- Low fourteen bits of the locator, modelling ResourceEntry.indexFile. -/
def ResourceEntry.indexFile (e : ResourceEntry) : Nat :=
  ReadValue e.locator 14 0

/-- Six bits above them, modelling ResourceEntry.indexTileset. -/
def ResourceEntry.indexTileset (e : ResourceEntry) : Nat :=
  ReadValue e.locator 6 14

/-- Top twelve bits, modelling ResourceEntry.indexBifEntry. -/
def ResourceEntry.indexBifEntry (e : ResourceEntry) : Nat :=
  ReadValue e.locator 12 20

-- Arithmetic characterisations of the bit operations used throughout.

/-- ReadValue is division by a power of two followed by a remainder. -/
theorem ReadValue_eq_div_mod (v w s : Nat) : ReadValue v w s = v / 2 ^ s % 2 ^ w := by
  unfold ReadValue
  rw [Nat.shiftRight_eq_div_pow, Nat.shiftLeft_eq, one_mul,
    Nat.and_pow_two_sub_one_eq_mod]

/-- Bitwise or of a left-shifted value with a value below the shift amount is
plain addition. -/
theorem shiftLeft_or_eq_add (x k y : Nat) (h : y < 2 ^ k) :
    (x <<< k) ||| y = x * 2 ^ k + y := by
  rw [Nat.shiftLeft_eq, mul_comm, ← Nat.mul_add_lt_is_or h, mul_comm]

/-- Bitwise or of four byte fields shifted to disjoint positions is plain
addition. -/
theorem byte_or4_eq_add (r g bl a : Nat) (hr : r < 256) (hg : g < 256)
    (_hbl : bl < 256) (ha : a < 256) :
    (r <<< 8) ||| (g <<< 16) ||| (bl <<< 24) ||| a
      = bl * 2 ^ 24 + g * 2 ^ 16 + r * 2 ^ 8 + a := by
  rw [Nat.or_comm (r <<< 8) (g <<< 16)]
  rw [Nat.or_assoc (g <<< 16) (r <<< 8) (bl <<< 24)]
  rw [Nat.or_comm (r <<< 8) (bl <<< 24)]
  rw [← Nat.or_assoc (g <<< 16) (bl <<< 24) (r <<< 8)]
  rw [Nat.or_comm (g <<< 16) (bl <<< 24)]
  rw [Nat.or_assoc (bl <<< 24) (g <<< 16) (r <<< 8)]
  rw [Nat.or_assoc (bl <<< 24) ((g <<< 16) ||| (r <<< 8)) a]
  rw [Nat.or_assoc (g <<< 16) (r <<< 8) a]
  rw [shiftLeft_or_eq_add r 8 a (by omega)]
  rw [shiftLeft_or_eq_add g 16 (r * 2 ^ 8 + a) (by omega)]
  rw [shiftLeft_or_eq_add bl 24 (g * 2 ^ 16 + (r * 2 ^ 8 + a)) (by omega)]
  omega

/-- C1. Claim: fixed-length string reads truncate at the first NUL byte, so
reading the thirteen bytes of HELLO, NUL, garbage yields exactly HELLO.  The
code instead only deletes NUL bytes: the readString helper computes the
NUL-truncated copy through readToReal and then discards it, passing the
original bytes to parseString, so the bytes after the NUL survive and the
read yields HELLOgarbage. -/
theorem c1_readString_failing_input :
    (Cursor.new (strBytes ("HELLO") ++ [0] ++ strBytes ("garbage"))).readString 13
      = .ok (strBytes ("HELLOgarbage"),
          ⟨strBytes ("HELLO") ++ [0] ++ strBytes ("garbage"), 13, []⟩)
    ∧ strBytes ("HELLOgarbage") ≠ strBytes ("HELLO") := by
  constructor
  · rfl
  · decide

/-- C3. For every u32 locator assembled as b shifted by 20 or t shifted by 14
or f, with b below 4096, t below 64 and f below 16384, the three KEY resource
entry decomposition functions return exactly b, t and f. -/
theorem c3_locator_roundtrip (b t f : Nat) (hb : b < 4096) (ht : t < 64)
    (hf : f < 16384) (name : List Nat) (rtype : Nat) :
    (ResourceEntry.mk name rtype ((b <<< 20) ||| (t <<< 14) ||| f)).indexBifEntry = b
    ∧ (ResourceEntry.mk name rtype ((b <<< 20) ||| (t <<< 14) ||| f)).indexTileset = t
    ∧ (ResourceEntry.mk name rtype ((b <<< 20) ||| (t <<< 14) ||| f)).indexFile = f := by
  have hL : (b <<< 20) ||| (t <<< 14) ||| f = b * 2 ^ 20 + (t * 2 ^ 14 + f) := by
    rw [Nat.or_assoc, shiftLeft_or_eq_add t 14 f hf,
      shiftLeft_or_eq_add b 20 (t * 2 ^ 14 + f) (by omega)]
  refine ⟨?_, ?_, ?_⟩ <;>
    simp only [ResourceEntry.indexBifEntry, ResourceEntry.indexTileset,
      ResourceEntry.indexFile, ReadValue_eq_div_mod, hL] <;>
    omega

/-- Witness for C3 at the locator from the repository test: b fifteen, t
zero, f forty assemble to 0xF00028 and decompose back to the same triple. -/
theorem c3_locator_roundtrip_witness :
    ((15 : Nat) < 4096 ∧ (0 : Nat) < 64 ∧ (40 : Nat) < 16384)
    ∧ ((ResourceEntry.mk [] 0 ((15 <<< 20) ||| (0 <<< 14) ||| 40)).indexBifEntry = 15
      ∧ (ResourceEntry.mk [] 0 ((15 <<< 20) ||| (0 <<< 14) ||| 40)).indexTileset = 0
      ∧ (ResourceEntry.mk [] 0 ((15 <<< 20) ||| (0 <<< 14) ||| 40)).indexFile = 40) :=
  ⟨⟨by decide, by decide, by decide⟩,
    c3_locator_roundtrip 15 0 40 (by decide) (by decide) (by decide) [] 0⟩

/-- C10. For every 32-bit value x, building a Color from x in BGRA byte order
and converting back to BGRA returns x. -/
theorem c10_color_bgra_roundtrip (x : Nat) (hx : x < 4294967296) :
    (Color.fromBGRA x).intoBGRA = x := by
  simp only [Color.fromBGRA, Color.intoBGRA, ReadValue_eq_div_mod]
  rw [byte_or4_eq_add (x / 2 ^ 8 % 2 ^ 8) (x / 2 ^ 16 % 2 ^ 8) (x / 2 ^ 24 % 2 ^ 8)
    (x / 2 ^ 0 % 2 ^ 8) (by omega) (by omega) (by omega) (by omega)]
  omega

/-- Witness for C10 at the value from the repository test, 0xAABBCCDD. -/
theorem c10_color_bgra_roundtrip_witness :
    (2864434397 : Nat) < 4294967296
    ∧ (Color.fromBGRA 2864434397).intoBGRA = 2864434397 :=
  ⟨by decide, c10_color_bgra_roundtrip 2864434397 (by decide)⟩

/-- Signature and version pair of src/types/util/identity.rs, both read as
four-byte strings. -/
structure Identity where
  signature : List Nat
  version : List Nat
deriving Repr, DecidableEq

/-- Reading an Identity, modelling Identity.fromCursor: two four-byte string
reads, without any validation of the content. -/
def Identity.fromCursor (c : Cursor) : Except String (Identity × Cursor) := do
  let (signature, c1) ← c.readString 4
  let (version, c2) ← c1.readString 4
  .ok ({ signature := signature, version := version }, c2)

/-- Game enumeration of src/platform/global.rs. -/
inductive Games where
  | None
  | BaldursGate1
  | BaldursGate1EnhancedEdition
  | BaldursGate2
  | BaldursGate2EnhancedEdition
  | IcewindDale1
  | IcewindDale1EnhancedEdition
  | IcewindDale2
  | PlanescapeTorment
  | PlanescapeTormentEnhancedEdition
deriving Repr, DecidableEq

/-- Single tile of a TIS tileset, per src/types/tis.rs: the decoded palette
colors, the raw palette words and the pixel indices. -/
structure TisTileData where
  colors : List Color
  palette : List Nat
  pixels : List Nat
deriving Repr, DecidableEq

/-- TIS tileset record of src/types/tis.rs. -/
structure Tis where
  identity : Identity
  tileCount : Nat
  tileLength : Nat
  headerSize : Nat
  tileSize : Nat
  tiles : List TisTileData
deriving Repr, DecidableEq

/-- Construction of a Tis carrying only a tile count, modelling Tis.new, which
fills the remaining fields from the Default implementation. -/
def Tis.new (count : Nat) : Tis :=
  { identity := { signature := strBytes ("TIS "), version := strBytes ("V1  ") }
    tileCount := count
    tileLength := 4096
    headerSize := 24
    tileSize := 64
    tiles := [] }

/-- Pixel bytes of one tile, modelling TisTileData.toBytes: for every pixel
index, the four color bytes of the palette entry at that index, or those of
the chroma-key entry (index zero) when the index is out of range.  The source
indexes colors at zero unconditionally, which requires a nonempty color list;
decoded tiles always carry 256 colors, and the default used here for an empty
list is never consulted by the concrete inputs below. -/
def TisTileData.toBytes (t : TisTileData) : List Nat :=
  let chromaKey := t.colors.headD { red := 0, green := 0, blue := 0, alpha := 0 }
  (t.pixels.map (fun pixel =>
    match t.colors.get? pixel with
    | none => chromaKey.bytes
    | some color => color.bytes)).flatten

/-- Reading count records in sequence with a reader f, modelling the repeated
for loops over fromCursor calls in the sources. -/
def readN {α : Type} (f : Cursor → Except String (α × Cursor)) :
    Nat → Cursor → Except String (List α × Cursor)
  | 0, c => .ok ([], c)
  | n + 1, c => do
    let (x, c1) ← f c
    let (xs, c2) ← readN f n c1
    .ok (x :: xs, c2)

/-- Reading one tile, modelling TisTileData.fromCursor: 256 little-endian
palette words (each also decoded to a Color in BGRA order) followed by 4096
pixel index bytes. -/
def TisTileData.fromCursor (c : Cursor) : Except String (TisTileData × Cursor) := do
  let (palette, c1) ← readN Cursor.readU32 256 c
  let colors := palette.map Color.fromBGRA
  let (pixels, c2) ← c1.readBytes 4096
  .ok ({ colors := colors, palette := palette, pixels := pixels }, c2)

/-- Reading the tiles of a Tis whose tile count is already known, modelling
the ReadIntoSelf implementation Tis.read. -/
def Tis.read (t : Tis) (c : Cursor) : Except String (Tis × Cursor) := do
  let (tiles, c1) ← readN TisTileData.fromCursor t.tileCount c
  .ok ({ t with tiles := tiles }, c1)

/-- Tilemap entry of a WED overlay, per src/types/wed/tilemap.rs. -/
structure Tilemap where
  start : Nat
  count : Nat
  secondary : Nat
  mask : Nat
  unknown : List Nat
deriving Repr, DecidableEq

/-- Reading a tilemap entry, modelling Tilemap.fromCursor: three u16 fields,
one u8 mask and three unknown bytes, ten bytes in total. -/
def Tilemap.fromCursor (c : Cursor) : Except String (Tilemap × Cursor) := do
  let (start, c) ← c.readU16
  let (count, c) ← c.readU16
  let (secondary, c) ← c.readU16
  let (mask, c) ← c.readU8
  let (unknown, c) ← c.readBytes 3
  .ok ({ start := start, count := count, secondary := secondary, mask := mask,
         unknown := unknown }, c)

/-- Interface of the shared resource manager as seen from the WED overlay
decoder: the source locks the process-wide manager and calls loadTileset on
it with a game and a tileset name, receiving an optional Tis.  The decoder is
parameterised by this function; a failed lock acquisition behaves like a
manager that returns none. -/
abbrev Manager := Games → List Nat → Option Tis

/-- Fuelled form of the tilemap while loop of Overlay.fromCursor: while fewer
tiles than the TIS tile count have been covered, read one tilemap entry and
add its count field to the running total.  Every successful entry read
consumes ten bytes of the cursor, so the loop runs at most one tenth of the
remaining buffer before failing at end of input; the fuel used below,
remaining length plus one, therefore never runs out (readTilemapsAux_fuel). -/
def readTilemapsAux (tileCount : Nat) : Nat → Nat → Cursor → Except String (List Tilemap × Cursor)
  | 0, _, _ => .error ("tilemap loop out of fuel")
  | fuel + 1, tilesRead, c =>
    if tilesRead < tileCount then
      match Tilemap.fromCursor c with
      | .error e => .error e
      | .ok (tm, c1) =>
        match readTilemapsAux tileCount fuel (tilesRead + tm.count) c1 with
        | .error e => .error e
        | .ok (tms, c2) => .ok (tm :: tms, c2)
    else .ok ([], c)

/-- Tilemap while loop of Overlay.fromCursor, starting from a running total
of tilesRead covered tiles. -/
def readTilemaps (tileCount tilesRead : Nat) (c : Cursor) :
    Except String (List Tilemap × Cursor) :=
  readTilemapsAux tileCount (c.rest.length + 1) tilesRead c

/-- WED overlay record of src/types/wed/overlay.rs. -/
structure Overlay where
  width : Nat
  height : Nat
  tilesetName : List Nat
  uniqueTileCount : Nat
  movementType : Nat
  tilemapOffset : Nat
  tileIndexLookupOffset : Nat
  tileIndexLookup : List Nat
  tilemaps : List Tilemap
  tis : Option Tis
deriving Repr, DecidableEq

/-- Reading one overlay, modelling Overlay.fromCursor: the seven header
fields, then a tileset lookup through the shared resource manager with the
constant game Games.BaldursGate1; when a TIS is found, the tilemap entries
are read at tilemapOffset until their count fields cover the TIS tile count,
one u16 lookup index is read at tileIndexLookupOffset per tilemap entry, and
the cursor position is restored afterwards.  When no TIS is found both lists
stay empty.  (The source copies the read entries into the result through a
conditional that leaves an empty list empty, which is the identity.) -/
def Overlay.fromCursor (mgr : Manager) (c : Cursor) : Except String (Overlay × Cursor) := do
  let (width, c) ← c.readU16
  let (height, c) ← c.readU16
  let (tilesetName, c) ← c.readResRef
  let (uniqueTileCount, c) ← c.readU16
  let (movementType, c) ← c.readU16
  let (tilemapOffset, c) ← c.readU32
  let (tileIndexLookupOffset, c) ← c.readU32
  let tis := mgr Games.BaldursGate1 tilesetName
  match tis with
  | none =>
    .ok ({ width := width, height := height, tilesetName := tilesetName,
           uniqueTileCount := uniqueTileCount, movementType := movementType,
           tilemapOffset := tilemapOffset,
           tileIndexLookupOffset := tileIndexLookupOffset,
           tileIndexLookup := [], tilemaps := [], tis := none }, c)
  | some t => do
    let position := c.position
    let c := c.setPosition tilemapOffset
    let (tilemaps, c) ← readTilemaps t.tileCount 0 c
    let c := c.setPosition tileIndexLookupOffset
    let (tileIndexLookup, c) ← readN Cursor.readU16 tilemaps.length c
    let c := c.setPosition position
    .ok ({ width := width, height := height, tilesetName := tilesetName,
           uniqueTileCount := uniqueTileCount, movementType := movementType,
           tilemapOffset := tilemapOffset,
           tileIndexLookupOffset := tileIndexLookupOffset,
           tileIndexLookup := tileIndexLookup, tilemaps := tilemaps,
           tis := some t }, c)

/-- Tile composition of an overlay, modelling Overlay.getTileBytes: for each
row y from zero to height and each column x from zero to width, compute the
cell number as y times (width minus one) plus x, look that cell up in the
tile index lookup table and emit the bytes of the TIS tile it names; cells
whose lookup or tile index is out of range, and all cells when no TIS is
attached, contribute nothing.  The u16 arithmetic of the source cannot wrap
for the small dimensions considered here. -/
def Overlay.getTileBytes (o : Overlay) : List Nat :=
  let tiles := (List.range o.height).flatMap (fun y =>
    (List.range o.width).filterMap (fun x =>
      let cellId := y * (o.width - 1) + x
      match o.tis with
      | none => none
      | some tis =>
        match o.tileIndexLookup.get? cellId with
        | none => none
        | some tileIndex =>
          match tis.tiles.get? tileIndex with
          | none => none
          | some tile => some tile.toBytes))
  tiles.flatten

/-- One-pixel test tile whose only palette color has red component i, so its
toBytes value is the four bytes i, 0, 0, 0. -/
def tileC2 (i : Nat) : TisTileData :=
  { colors := [{ red := i, green := 0, blue := 0, alpha := 0 }], palette := [0], pixels := [0] }

/-- Four-tile tileset for the composition check. -/
def tisC2 : Tis :=
  { identity := { signature := strBytes ("TIS "), version := strBytes ("V1  ") }
    tileCount := 4
    tileLength := 4096
    headerSize := 24
    tileSize := 64
    tiles := [tileC2 0, tileC2 1, tileC2 2, tileC2 3] }

/-- Two-by-two overlay whose lookup table names the four distinct tiles in
cell order. -/
def overlayC2 : Overlay :=
  { width := 2, height := 2, tilesetName := strBytes ("TST"), uniqueTileCount := 0,
    movementType := 0, tilemapOffset := 0, tileIndexLookupOffset := 0,
    tileIndexLookup := [0, 1, 2, 3], tilemaps := [], tis := some tisC2 }

/-- C2. Claim: the composer walks the cells in order cellId equal to y times
width plus x, which for this overlay would emit tiles zero, one, two, three.
The code computes y times (width minus one) plus x, contradicting the cell
numbering stated in the doc comment directly above it, so cell (x zero,
y one) reuses lookup index one and the emitted tiles are zero, one, one, two. -/
theorem c2_getTileBytes_failing_input :
    overlayC2.getTileBytes = [0, 0, 0, 0, 1, 0, 0, 0, 1, 0, 0, 0, 2, 0, 0, 0]
    ∧ overlayC2.getTileBytes ≠ [0, 0, 0, 0, 1, 0, 0, 0, 2, 0, 0, 0, 3, 0, 0, 0] := by
  constructor
  · rfl
  · decide

/-- Loop invariant of the fuelled tilemap loop: on success the count fields
of the entries read, added to the running total, reach the tile count, and
every proper prefix of the entries leaves the running total strictly short of
it (each entry was only read because the total was still short). -/
theorem readTilemapsAux_spec (tileCount : Nat) :
    ∀ fuel tilesRead c tms c2,
      readTilemapsAux tileCount fuel tilesRead c = .ok (tms, c2) →
      tileCount ≤ tilesRead + (tms.map (fun tm => tm.count)).sum
      ∧ ∀ k, k < tms.length →
          tilesRead + ((tms.take k).map (fun tm => tm.count)).sum < tileCount := by
  intro fuel
  induction fuel with
  | zero =>
    intro tilesRead c tms c2 h
    exact absurd h (by simp [readTilemapsAux])
  | succ fuel ih =>
    intro tilesRead c tms c2 h
    unfold readTilemapsAux at h
    by_cases hlt : tilesRead < tileCount
    · rw [if_pos hlt] at h
      cases htm : Tilemap.fromCursor c with
      | error e => rw [htm] at h; exact Except.noConfusion h
      | ok p =>
        rw [htm] at h
        obtain ⟨tm, c1⟩ := p
        dsimp only at h
        cases hrec : readTilemapsAux tileCount fuel (tilesRead + tm.count) c1 with
        | error e => rw [hrec] at h; exact Except.noConfusion h
        | ok q =>
          rw [hrec] at h
          obtain ⟨tms1, c3⟩ := q
          dsimp only at h
          obtain ⟨h1, h2⟩ := Prod.mk.injEq .. ▸ Except.ok.injEq .. ▸ h
          subst h1
          obtain ⟨ihA, ihB⟩ := ih (tilesRead + tm.count) c1 tms1 c3 hrec
          constructor
          · simp only [List.map_cons, List.sum_cons]
            omega
          · intro k hk
            cases k with
            | zero => simpa using hlt
            | succ k =>
              simp only [List.take_succ_cons, List.map_cons, List.sum_cons]
              have := ihB k (by simpa using hk)
              omega
    · rw [if_neg hlt] at h
      obtain ⟨h1, h2⟩ := Prod.mk.injEq .. ▸ Except.ok.injEq .. ▸ h
      subst h1
      exact ⟨by simpa using Nat.le_of_not_lt hlt, by intro k hk; simp at hk⟩

/-- Structure of a successfully decoded overlay: the attached TIS is exactly
the manager lookup at game BaldursGate1 and the overlay tileset name, and
when a TIS is attached the tilemap count fields cover its tile count with a
minimal run of entries. -/
theorem overlay_fromCursor_inv (mgr : Manager) (c c2 : Cursor) (o : Overlay)
    (h : Overlay.fromCursor mgr c = .ok (o, c2)) :
    o.tis = mgr Games.BaldursGate1 o.tilesetName
    ∧ ∀ t, o.tis = some t →
        t.tileCount ≤ (o.tilemaps.map (fun tm => tm.count)).sum
        ∧ ∀ k, k < o.tilemaps.length →
            ((o.tilemaps.take k).map (fun tm => tm.count)).sum < t.tileCount := by
  unfold Overlay.fromCursor at h
  simp only [bind, Except.bind] at h
  cases h1 : c.readU16 with
  | error e => rw [h1] at h; exact Except.noConfusion h
  | ok p1 =>
  rw [h1] at h; obtain ⟨width, cA⟩ := p1; dsimp only at h
  cases h2 : cA.readU16 with
  | error e => rw [h2] at h; exact Except.noConfusion h
  | ok p2 =>
  rw [h2] at h; obtain ⟨height, cB⟩ := p2; dsimp only at h
  cases h3 : cB.readResRef with
  | error e => rw [h3] at h; exact Except.noConfusion h
  | ok p3 =>
  rw [h3] at h; obtain ⟨tilesetName, cC⟩ := p3; dsimp only at h
  cases h4 : cC.readU16 with
  | error e => rw [h4] at h; exact Except.noConfusion h
  | ok p4 =>
  rw [h4] at h; obtain ⟨uniqueTileCount, cD⟩ := p4; dsimp only at h
  cases h5 : cD.readU16 with
  | error e => rw [h5] at h; exact Except.noConfusion h
  | ok p5 =>
  rw [h5] at h; obtain ⟨movementType, cE⟩ := p5; dsimp only at h
  cases h6 : cE.readU32 with
  | error e => rw [h6] at h; exact Except.noConfusion h
  | ok p6 =>
  rw [h6] at h; obtain ⟨tilemapOffset, cF⟩ := p6; dsimp only at h
  cases h7 : cF.readU32 with
  | error e => rw [h7] at h; exact Except.noConfusion h
  | ok p7 =>
  rw [h7] at h; obtain ⟨tileIndexLookupOffset, cG⟩ := p7; dsimp only at h
  cases hm : mgr Games.BaldursGate1 tilesetName with
  | none =>
    rw [hm] at h; dsimp only at h
    obtain ⟨ho, hc⟩ := Prod.mk.injEq .. ▸ Except.ok.injEq .. ▸ h
    subst ho
    refine ⟨by simpa using hm.symm, ?_⟩
    intro t ht
    exact absurd ht (by simp)
  | some t =>
    rw [hm] at h; dsimp only at h
    cases hr : readTilemaps t.tileCount 0 (cG.setPosition tilemapOffset) with
    | error e => rw [hr] at h; exact Except.noConfusion h
    | ok pr =>
    rw [hr] at h; obtain ⟨tms, cH⟩ := pr; dsimp only at h
    cases hn : readN Cursor.readU16 tms.length (cH.setPosition tileIndexLookupOffset) with
    | error e => rw [hn] at h; exact Except.noConfusion h
    | ok pn =>
    rw [hn] at h; obtain ⟨lookup, cI⟩ := pn; dsimp only at h
    obtain ⟨ho, hc⟩ := Prod.mk.injEq .. ▸ Except.ok.injEq .. ▸ h
    subst ho
    refine ⟨by simpa using hm.symm, ?_⟩
    intro t2 ht2
    have htt : t2 = t := by simpa using ht2.symm
    subst htt
    unfold readTilemaps at hr
    have := readTilemapsAux_spec t2.tileCount
      ((cG.setPosition tilemapOffset).rest.length + 1) 0
      (cG.setPosition tilemapOffset) tms cH hr
    simpa using this

/-- Primary WED header of src/types/wed/header.rs. -/
structure WedHeader where
  identity : Identity
  overlayCount : Nat
  doorCount : Nat
  overlayOffset : Nat
  headerOffset : Nat
  doorOffset : Nat
  doorTileOffset : Nat
deriving Repr, DecidableEq

/-- Reading the primary WED header, modelling WedHeader.fromCursor; the
signature and version are read but not validated. -/
def WedHeader.fromCursor (c : Cursor) : Except String (WedHeader × Cursor) := do
  let (identity, c) ← Identity.fromCursor c
  let (overlayCount, c) ← c.readU32
  let (doorCount, c) ← c.readU32
  let (overlayOffset, c) ← c.readU32
  let (headerOffset, c) ← c.readU32
  let (doorOffset, c) ← c.readU32
  let (doorTileOffset, c) ← c.readU32
  .ok ({ identity := identity, overlayCount := overlayCount, doorCount := doorCount,
         overlayOffset := overlayOffset, headerOffset := headerOffset,
         doorOffset := doorOffset, doorTileOffset := doorTileOffset }, c)

/-- Secondary WED header of src/types/wed/header.rs. -/
structure SecondaryHeader where
  polygonCount : Nat
  polygonOffset : Nat
  verticesOffset : Nat
  wallGroupsOffset : Nat
  polygonLookupOffset : Nat
deriving Repr, DecidableEq

/-- Reading the secondary WED header, modelling SecondaryHeader.fromCursor. -/
def SecondaryHeader.fromCursor (c : Cursor) : Except String (SecondaryHeader × Cursor) := do
  let (polygonCount, c) ← c.readU32
  let (polygonOffset, c) ← c.readU32
  let (verticesOffset, c) ← c.readU32
  let (wallGroupsOffset, c) ← c.readU32
  let (polygonLookupOffset, c) ← c.readU32
  .ok ({ polygonCount := polygonCount, polygonOffset := polygonOffset,
         verticesOffset := verticesOffset, wallGroupsOffset := wallGroupsOffset,
         polygonLookupOffset := polygonLookupOffset }, c)

/-- WED door record of src/types/wed/door.rs. -/
structure Door where
  name : List Nat
  openClosed : Nat
  firstDoorIndex : Nat
  tileCellCount : Nat
  openCount : Nat
  closedCount : Nat
  openOffset : Nat
  closedOffset : Nat
deriving Repr, DecidableEq

/-- Reading a WED door record, modelling Door.fromCursor. -/
def Door.fromCursor (c : Cursor) : Except String (Door × Cursor) := do
  let (name, c) ← c.readResRef
  let (openClosed, c) ← c.readU16
  let (firstDoorIndex, c) ← c.readU16
  let (doorCount, c) ← c.readU16
  let (openCount, c) ← c.readU16
  let (closedCount, c) ← c.readU16
  let (openOffset, c) ← c.readU32
  let (closedOffset, c) ← c.readU32
  .ok ({ name := name, openClosed := openClosed, firstDoorIndex := firstDoorIndex,
         tileCellCount := doorCount, openCount := openCount,
         closedCount := closedCount, openOffset := openOffset,
         closedOffset := closedOffset }, c)

/-- Bounding box of src/types/util/boundingbox.rs, read in order left, top,
right, bottom. -/
structure BoundingBox where
  bottom : Nat
  left : Nat
  right : Nat
  top : Nat
deriving Repr, DecidableEq

/-- Reading a bounding box, modelling the Readable implementation. -/
def BoundingBox.fromCursor (c : Cursor) : Except String (BoundingBox × Cursor) := do
  let (left, c) ← c.readU16
  let (top, c) ← c.readU16
  let (right, c) ← c.readU16
  let (bottom, c) ← c.readU16
  .ok ({ bottom := bottom, left := left, right := right, top := top }, c)

/-- WED wall polygon of src/types/wed/polygon.rs. -/
structure Polygon where
  start : Nat
  count : Nat
  mask : Nat
  height : Nat
  boundingBox : BoundingBox
deriving Repr, DecidableEq

/-- Reading a polygon record, modelling Polygon.fromCursor. -/
def Polygon.fromCursor (c : Cursor) : Except String (Polygon × Cursor) := do
  let (start, c) ← c.readU32
  let (count, c) ← c.readU32
  let (mask, c) ← c.readU8
  let (height, c) ← c.readU8
  let (boundingBox, c) ← BoundingBox.fromCursor c
  .ok ({ start := start, count := count, mask := mask, height := height,
         boundingBox := boundingBox }, c)

/-- WED wall group of src/types/wed/wall.rs: a start index and count into the
polygon index lookup table. -/
structure WallGroup where
  start : Nat
  count : Nat
deriving Repr, DecidableEq

/-- Size constant WallGroup.WallGroupSize of src/types/wed/wall.rs. -/
def WallGroupSize : Nat := 75

/-- Reading a wall group record, modelling WallGroup.fromCursor. -/
def WallGroup.fromCursor (c : Cursor) : Except String (WallGroup × Cursor) := do
  let (start, c) ← c.readU16
  let (count, c) ← c.readU16
  .ok ({ start := start, count := count }, c)

/-- Decoded WED file of src/types/wed/wed.rs. -/
structure Wed where
  header : WedHeader
  overlays : List Overlay
  secondaryHeader : SecondaryHeader
  doors : List Door
  doorTileCellIndices : List Nat
  wallGroups : List WallGroup
  polygons : List Polygon
  polygonIndexLookup : List Nat
deriving Repr, DecidableEq

/-- Reading a WED file, modelling Wed.fromCursor: primary header, overlayCount
overlays (read in place, no seek to overlayOffset), the secondary header,
doorCount doors, then doorCount door tile cell indices at doorTileOffset, as
many wall groups at wallGroupsOffset as the sum over all overlays of their
tilemap count divided by WallGroupSize, and polygonCount polygons and lookup
indices at their offsets. -/
def Wed.fromCursor (mgr : Manager) (c : Cursor) : Except String (Wed × Cursor) := do
  let (header, c) ← WedHeader.fromCursor c
  let (overlays, c) ← readN (Overlay.fromCursor mgr) header.overlayCount c
  let (secondaryHeader, c) ← SecondaryHeader.fromCursor c
  let (doors, c) ← readN Door.fromCursor header.doorCount c
  let c := c.setPosition header.doorTileOffset
  let (doorTileCellIndices, c) ← readN Cursor.readU32 header.doorCount c
  let wallGroupsSize := overlays.foldl (fun acc o => acc + o.tilemaps.length / WallGroupSize) 0
  let c := c.setPosition secondaryHeader.wallGroupsOffset
  let (wallGroups, c) ← readN WallGroup.fromCursor wallGroupsSize c
  let c := c.setPosition secondaryHeader.polygonOffset
  let (polygons, c) ← readN Polygon.fromCursor secondaryHeader.polygonCount c
  let c := c.setPosition secondaryHeader.polygonLookupOffset
  let (polygonIndexLookup, c) ← readN Cursor.readU16 secondaryHeader.polygonCount c
  .ok ({ header := header, overlays := overlays, secondaryHeader := secondaryHeader,
         doors := doors, doorTileCellIndices := doorTileCellIndices,
         wallGroups := wallGroups, polygons := polygons,
         polygonIndexLookup := polygonIndexLookup }, c)

/-- The overlay decoder consults the manager only at game BaldursGate1: two
managers that agree there decode identically. -/
theorem Overlay.fromCursor_mgr_congr (m1 m2 : Manager)
    (h : ∀ n, m1 Games.BaldursGate1 n = m2 Games.BaldursGate1 n) :
    Overlay.fromCursor m1 = Overlay.fromCursor m2 := by
  funext c
  unfold Overlay.fromCursor
  simp only [h]

/-- Reading n records yields a list of length n. -/
theorem readN_length {α : Type} (f : Cursor → Except String (α × Cursor)) :
    ∀ n c xs c2, readN f n c = .ok (xs, c2) → xs.length = n := by
  intro n
  induction n with
  | zero =>
    intro c xs c2 h
    unfold readN at h
    obtain ⟨h1, h2⟩ := Prod.mk.injEq .. ▸ Except.ok.injEq .. ▸ h
    rw [← h1]
    rfl
  | succ n ih =>
    intro c xs c2 h
    unfold readN at h
    simp only [bind, Except.bind] at h
    cases h1 : f c with
    | error e => rw [h1] at h; exact Except.noConfusion h
    | ok p =>
    rw [h1] at h; obtain ⟨x, c1⟩ := p; dsimp only at h
    cases h2 : readN f n c1 with
    | error e => rw [h2] at h; exact Except.noConfusion h
    | ok q =>
    rw [h2] at h; obtain ⟨xs1, c3⟩ := q; dsimp only at h
    obtain ⟨h3, h4⟩ := Prod.mk.injEq .. ▸ Except.ok.injEq .. ▸ h
    rw [← h3]
    simp [ih c1 xs1 c3 h2]

/-- A property preserved by a reader holds for every record a readN loop over
that reader returns. -/
theorem readN_forall {α : Type} (f : Cursor → Except String (α × Cursor))
    (P : α → Prop) (hf : ∀ c x c2, f c = .ok (x, c2) → P x) :
    ∀ n c xs c2, readN f n c = .ok (xs, c2) → ∀ x, x ∈ xs → P x := by
  intro n
  induction n with
  | zero =>
    intro c xs c2 h
    unfold readN at h
    obtain ⟨h1, h2⟩ := Prod.mk.injEq .. ▸ Except.ok.injEq .. ▸ h
    rw [← h1]
    intro x hx
    exact absurd hx (by simp)
  | succ n ih =>
    intro c xs c2 h
    unfold readN at h
    simp only [bind, Except.bind] at h
    cases h1 : f c with
    | error e => rw [h1] at h; exact Except.noConfusion h
    | ok p =>
    rw [h1] at h; obtain ⟨x, c1⟩ := p; dsimp only at h
    cases h2 : readN f n c1 with
    | error e => rw [h2] at h; exact Except.noConfusion h
    | ok q =>
    rw [h2] at h; obtain ⟨xs1, c3⟩ := q; dsimp only at h
    obtain ⟨h3, h4⟩ := Prod.mk.injEq .. ▸ Except.ok.injEq .. ▸ h
    rw [← h3]
    intro y hy
    rcases List.mem_cons.mp hy with hy | hy
    · exact hy ▸ hf c x c1 h1
    · exact ih c1 xs1 c3 h2 y hy

/-- Folding the per-overlay wall group contribution is the sum of the mapped
contributions. -/
theorem foldl_wallgroup_sum (l : List Overlay) :
    ∀ init, l.foldl (fun acc o => acc + o.tilemaps.length / WallGroupSize) init
      = init + (l.map (fun o => o.tilemaps.length / WallGroupSize)).sum := by
  induction l with
  | nil => intro init; simp
  | cons o l ih =>
    intro init
    simp only [List.foldl_cons, List.map_cons, List.sum_cons, ih]
    omega

/-- Structure of a successfully decoded WED: the wall group list has the
length the source computes (the fold over all overlays of tilemap count
divided by WallGroupSize), and every overlay carries the manager tileset
lookup at game BaldursGate1. -/
theorem wed_fromCursor_inv (mgr : Manager) (c c2 : Cursor) (wed : Wed)
    (h : Wed.fromCursor mgr c = .ok (wed, c2)) :
    wed.wallGroups.length
      = wed.overlays.foldl (fun acc o => acc + o.tilemaps.length / WallGroupSize) 0
    ∧ ∀ o, o ∈ wed.overlays → o.tis = mgr Games.BaldursGate1 o.tilesetName := by
  unfold Wed.fromCursor at h
  simp only [bind, Except.bind] at h
  cases h1 : WedHeader.fromCursor c with
  | error e => rw [h1] at h; exact Except.noConfusion h
  | ok p1 =>
  rw [h1] at h; obtain ⟨header, cA⟩ := p1; dsimp only at h
  cases h2 : readN (Overlay.fromCursor mgr) header.overlayCount cA with
  | error e => rw [h2] at h; exact Except.noConfusion h
  | ok p2 =>
  rw [h2] at h; obtain ⟨overlays, cB⟩ := p2; dsimp only at h
  cases h3 : SecondaryHeader.fromCursor cB with
  | error e => rw [h3] at h; exact Except.noConfusion h
  | ok p3 =>
  rw [h3] at h; obtain ⟨secondaryHeader, cC⟩ := p3; dsimp only at h
  cases h4 : readN Door.fromCursor header.doorCount cC with
  | error e => rw [h4] at h; exact Except.noConfusion h
  | ok p4 =>
  rw [h4] at h; obtain ⟨doors, cD⟩ := p4; dsimp only at h
  cases h5 : readN Cursor.readU32 header.doorCount (cD.setPosition header.doorTileOffset) with
  | error e => rw [h5] at h; exact Except.noConfusion h
  | ok p5 =>
  rw [h5] at h; obtain ⟨doorTileCellIndices, cE⟩ := p5; dsimp only at h
  cases h6 : readN WallGroup.fromCursor
      (overlays.foldl (fun acc o => acc + o.tilemaps.length / WallGroupSize) 0)
      (cE.setPosition secondaryHeader.wallGroupsOffset) with
  | error e => rw [h6] at h; exact Except.noConfusion h
  | ok p6 =>
  rw [h6] at h; obtain ⟨wallGroups, cF⟩ := p6; dsimp only at h
  cases h7 : readN Polygon.fromCursor secondaryHeader.polygonCount
      (cF.setPosition secondaryHeader.polygonOffset) with
  | error e => rw [h7] at h; exact Except.noConfusion h
  | ok p7 =>
  rw [h7] at h; obtain ⟨polygons, cG⟩ := p7; dsimp only at h
  cases h8 : readN Cursor.readU16 secondaryHeader.polygonCount
      (cG.setPosition secondaryHeader.polygonLookupOffset) with
  | error e => rw [h8] at h; exact Except.noConfusion h
  | ok p8 =>
  rw [h8] at h; obtain ⟨polygonIndexLookup, cH⟩ := p8; dsimp only at h
  obtain ⟨hw, hc⟩ := Prod.mk.injEq .. ▸ Except.ok.injEq .. ▸ h
  subst hw
  constructor
  · exact readN_length WallGroup.fromCursor _ _ wallGroups cF h6
  · intro o ho
    have hP : ∀ cx ox cy, Overlay.fromCursor mgr cx = .ok (ox, cy) →
        ox.tis = mgr Games.BaldursGate1 ox.tilesetName :=
      fun cx ox cy hx => (overlay_fromCursor_inv mgr cx cy ox hx).1
    exact readN_forall (Overlay.fromCursor mgr) _ hP header.overlayCount cA overlays cB h2 o ho

/-- Manager that has no tileset for any game and name. -/
def mgrAllNone : Manager := fun _ _ => none

/-- Manager that returns an empty tileset for every game and name. -/
def mgrSomeEmpty : Manager := fun _ _ => some (Tis.new 0)

/-- Manager that has tilesets only for IcewindDale1; it agrees with
mgrAllNone at BaldursGate1. -/
def mgrIwdOnly : Manager :=
  fun g _ => if g = Games.IcewindDale1 then some (Tis.new 0) else none

/-- Manager that has an empty tileset for every name, but only for
BaldursGate1. -/
def mgrBg1Empty : Manager :=
  fun g _ => if g = Games.BaldursGate1 then some (Tis.new 0) else none

/-- Twenty-four zero bytes: a syntactically valid overlay descriptor. -/
def bytesOverlayZero : List Nat := List.replicate 24 0

/-- C4 counterexample. Claim: every decode is a pure function of the cursor
bytes, independent of resource-manager state.  Decoding the same twenty-four
descriptor bytes under two manager states (no tileset cached anywhere, versus
a tileset available) yields different overlays: the attached tis field
differs, so the WED overlay decoder is not a function of the cursor alone. -/
theorem c4_overlay_decode_not_pure :
    (Overlay.fromCursor mgrAllNone (Cursor.new bytesOverlayZero)).toOption.map
        (fun p => p.1.tis) = some none
    ∧ (Overlay.fromCursor mgrSomeEmpty (Cursor.new bytesOverlayZero)).toOption.map
        (fun p => p.1.tis) = some (some (Tis.new 0))
    ∧ Overlay.fromCursor mgrAllNone (Cursor.new bytesOverlayZero)
        ≠ Overlay.fromCursor mgrSomeEmpty (Cursor.new bytesOverlayZero) := by
  refine ⟨rfl, rfl, fun hEq => ?_⟩
  have h1 : (Overlay.fromCursor mgrAllNone (Cursor.new bytesOverlayZero)).toOption.map
      (fun p => p.1.tis) = some none := rfl
  have h2 : (Overlay.fromCursor mgrSomeEmpty (Cursor.new bytesOverlayZero)).toOption.map
      (fun p => p.1.tis) = some (some (Tis.new 0)) := rfl
  rw [hEq, h2] at h1
  exact absurd h1 (by decide)

/-- C4 as amended.  All embedded decoders are plain functions of their cursor;
the one exception is the WED overlay decoder (and the WED decoder containing
it), which additionally consults the shared resource manager — but only its
BaldursGate1 column: managers that agree there decode identically. -/
theorem c4_decode_depends_only_on_bg1_column (m1 m2 : Manager)
    (h : ∀ n, m1 Games.BaldursGate1 n = m2 Games.BaldursGate1 n) :
    (∀ c, Overlay.fromCursor m1 c = Overlay.fromCursor m2 c)
    ∧ (∀ c, Wed.fromCursor m1 c = Wed.fromCursor m2 c) := by
  have ho : Overlay.fromCursor m1 = Overlay.fromCursor m2 :=
    Overlay.fromCursor_mgr_congr m1 m2 h
  constructor
  · intro c; rw [ho]
  · intro c; unfold Wed.fromCursor; rw [ho]

/-- Witness for the amended C4: a manager with tilesets only for
IcewindDale1 agrees with the empty manager at BaldursGate1, and decoding the
zero descriptor under either yields the same overlay. -/
theorem c4_decode_depends_only_on_bg1_column_witness :
    Overlay.fromCursor mgrIwdOnly (Cursor.new bytesOverlayZero)
      = Overlay.fromCursor mgrAllNone (Cursor.new bytesOverlayZero) :=
  (c4_decode_depends_only_on_bg1_column mgrIwdOnly mgrAllNone (fun _ => rfl)).1
    (Cursor.new bytesOverlayZero)

/-- C5. For every WED decode, whatever game the surrounding resource load was
issued for, each overlay of the result carries the manager tileset lookup at
the constant game BaldursGate1 and the overlay tileset name: the decoder
never receives the game of the load, and the source passes the literal
Games::BaldursGate1 to loadTileset. -/
theorem c5_overlay_tileset_queried_for_bg1 (mgr : Manager) (c c2 : Cursor) (wed : Wed)
    (h : Wed.fromCursor mgr c = .ok (wed, c2)) :
    ∀ o, o ∈ wed.overlays → o.tis = mgr Games.BaldursGate1 o.tilesetName :=
  (wed_fromCursor_inv mgr c c2 wed h).2

/-- Byte image of a WED with one overlay and nothing else: primary header,
one overlay descriptor naming tileset A, and an all-zero secondary header. -/
def wedOneBytes : List Nat :=
  strBytes ("WED ") ++ strBytes ("V1.3")
    ++ [1, 0, 0, 0] ++ [0, 0, 0, 0] ++ [32, 0, 0, 0] ++ [56, 0, 0, 0]
    ++ [0, 0, 0, 0] ++ [0, 0, 0, 0]
    ++ [1, 0] ++ [1, 0] ++ [65, 0, 0, 0, 0, 0, 0, 0] ++ [0, 0] ++ [0, 0]
    ++ [0, 0, 0, 0] ++ [0, 0, 0, 0]
    ++ List.replicate 20 0

/-- The overlay that decoding wedOneBytes under mgrBg1Empty produces. -/
def overlayW5 : Overlay :=
  { width := 1, height := 1, tilesetName := strBytes ("A"), uniqueTileCount := 0,
    movementType := 0, tilemapOffset := 0, tileIndexLookupOffset := 0,
    tileIndexLookup := [], tilemaps := [], tis := some (Tis.new 0) }

/-- The WED that decoding wedOneBytes under mgrBg1Empty produces. -/
def wedW5 : Wed :=
  { header := { identity := { signature := strBytes ("WED "), version := strBytes ("V1.3") },
                overlayCount := 1, doorCount := 0, overlayOffset := 32,
                headerOffset := 56, doorOffset := 0, doorTileOffset := 0 }
    overlays := [overlayW5]
    secondaryHeader := { polygonCount := 0, polygonOffset := 0, verticesOffset := 0,
                         wallGroupsOffset := 0, polygonLookupOffset := 0 }
    doors := [], doorTileCellIndices := [], wallGroups := [], polygons := [],
    polygonIndexLookup := [] }

/-- Witness for C5: decoding wedOneBytes under mgrBg1Empty succeeds, and the
single overlay of the result carries exactly the BaldursGate1 lookup of its
tileset name. -/
theorem c5_overlay_tileset_queried_for_bg1_witness :
    overlayW5.tis = mgrBg1Empty Games.BaldursGate1 overlayW5.tilesetName :=
  c5_overlay_tileset_queried_for_bg1 mgrBg1Empty (Cursor.new wedOneBytes)
    (Cursor.new wedOneBytes) wedW5 rfl overlayW5 (by simp [wedW5])

/-- C6 as amended. For every successfully decoded WED, the number of wall
group records read equals the sum over all overlays — not just the base
overlay — of each overlay tilemap count divided by 75 (integer division per
overlay, then summed), as the source folds the contribution of every
overlay. -/
theorem c6_wallgroup_count_sums_all_overlays (mgr : Manager) (c c2 : Cursor) (wed : Wed)
    (h : Wed.fromCursor mgr c = .ok (wed, c2)) :
    wed.wallGroups.length = (wed.overlays.map (fun o => o.tilemaps.length / 75)).sum := by
  have h1 := (wed_fromCursor_inv mgr c c2 wed h).1
  rw [h1, foldl_wallgroup_sum wed.overlays 0]
  simp [WallGroupSize]

/-- Witness for the amended C6 at a concrete decode: wedOneBytes decodes
under mgrBg1Empty to a WED with one overlay of zero tilemaps and zero wall
groups, and zero equals the sum of zero divided by 75. -/
theorem c6_wallgroup_count_sums_all_overlays_witness :
    wedW5.wallGroups.length = (wedW5.overlays.map (fun o => o.tilemaps.length / 75)).sum :=
  c6_wallgroup_count_sums_all_overlays mgrBg1Empty (Cursor.new wedOneBytes)
    (Cursor.new wedOneBytes) wedW5 rfl

/-- Tileset with seventy-five tiles declared and none materialised, as
returned by a manager for the wall group counterexample. -/
def tis75 : Tis := Tis.new 75

/-- Manager holding tis75 for every name under BaldursGate1. -/
def mgrTis75 : Manager :=
  fun g _ => if g = Games.BaldursGate1 then some tis75 else none

/-- Overlay descriptor used twice in the wall group counterexample: one by
one cells, tileset name TST, tilemap and lookup offsets both 100. -/
def ovDescC6 : List Nat :=
  [1, 0, 1, 0, 84, 83, 84, 0, 0, 0, 0, 0, 0, 0, 0, 0, 100, 0, 0, 0, 100, 0, 0, 0]

/-- Byte image of a WED with two overlays that each read seventy-five tilemap
entries (every entry covers one tile of the seventy-five declared by tis75):
primary header, two identical overlay descriptors, an all-zero secondary
header, and at offset 100 seventy-five ten-byte tilemap entries with count
one. -/
def wedBytesC6 : List Nat :=
  strBytes ("WED ") ++ strBytes ("V1.3")
    ++ [2, 0, 0, 0] ++ [0, 0, 0, 0] ++ [32, 0, 0, 0] ++ [80, 0, 0, 0]
    ++ [0, 0, 0, 0] ++ [0, 0, 0, 0]
    ++ ovDescC6 ++ ovDescC6
    ++ List.replicate 20 0
    ++ (List.replicate 75 [0, 0, 1, 0, 0, 0, 0, 0, 0, 0]).flatten

set_option maxRecDepth 16384

/-- C6 counterexample. Claim: the wall group count equals the base overlay
tilemap count divided by 75, regardless of the other overlays.  Decoding
wedBytesC6 reads seventy-five tilemaps in each of the two overlays, and the
source reads two wall groups — one per overlay — while the base overlay alone
would give seventy-five divided by seventy-five, one. -/
theorem c6_wallgroup_count_counterexample :
    (Wed.fromCursor mgrTis75 (Cursor.new wedBytesC6)).toOption.map
        (fun p => (p.1.wallGroups.length, (p.1.overlays.map (fun o => o.tilemaps.length)).headD 0))
      = some (2, 75)
    ∧ (2 : Nat) ≠ 75 / 75 := by
  exact ⟨rfl, by decide⟩

/-- C7 as amended. For every successfully decoded overlay with an attached
TIS, the sum of the tilemap count fields is at least the TIS tile count, and
the entries form a minimal such run: every proper prefix sums to strictly
less than the tile count.  The sum can exceed the tile count (the loop stops
at the first entry that reaches or passes it), so exact equality holds only
when the final entry lands exactly on the count. -/
theorem c7_tilemap_counts_cover_tilecount (mgr : Manager) (c c2 : Cursor) (o : Overlay)
    (t : Tis) (h : Overlay.fromCursor mgr c = .ok (o, c2)) (ht : o.tis = some t) :
    t.tileCount ≤ (o.tilemaps.map (fun tm => tm.count)).sum
    ∧ ∀ k, k < o.tilemaps.length →
        ((o.tilemaps.take k).map (fun tm => tm.count)).sum < t.tileCount :=
  (overlay_fromCursor_inv mgr c c2 o h).2 t ht

/-- Tileset declaring three tiles, for the coverage counterexample. -/
def tis3 : Tis := Tis.new 3

/-- Manager holding tis3 for every name under BaldursGate1. -/
def mgrTis3 : Manager :=
  fun g _ => if g = Games.BaldursGate1 then some tis3 else none

/-- Overlay bytes for the coverage counterexample: a descriptor with tilemap
and lookup offsets 24, followed by two tilemap entries whose count fields are
two each, against a TIS of three tiles. -/
def overlayBytesC7 : List Nat :=
  [1, 0, 1, 0, 84, 0, 0, 0, 0, 0, 0, 0, 0, 0, 0, 0, 24, 0, 0, 0, 24, 0, 0, 0]
    ++ [0, 0, 2, 0, 0, 0, 0, 0, 0, 0]
    ++ [0, 0, 2, 0, 0, 0, 0, 0, 0, 0]

/-- C7 counterexample. Claim: the sum of the tilemap count fields equals the
TIS tile count exactly, never more.  Decoding overlayBytesC7 against a TIS of
three tiles reads two entries of count two and stops at a sum of four, which
the decoder accepts — the sum exceeds the tile count. -/
theorem c7_tilemap_counts_counterexample :
    (Overlay.fromCursor mgrTis3 (Cursor.new overlayBytesC7)).toOption.map
        (fun p => ((p.1.tilemaps.map (fun tm => tm.count)).sum,
          p.1.tis.map (fun t => t.tileCount)))
      = some (4, some 3)
    ∧ (4 : Nat) ≠ 3 := by
  exact ⟨rfl, by decide⟩

/-- Manager holding a one-tile tileset for every name under BaldursGate1. -/
def mgrTis1 : Manager :=
  fun g _ => if g = Games.BaldursGate1 then some (Tis.new 1) else none

/-- Overlay bytes for the coverage witness: one tilemap entry of count one at
offset 24, one lookup index at offset 34, against a TIS of one tile. -/
def overlayBytesC7W : List Nat :=
  [1, 0, 1, 0, 84, 0, 0, 0, 0, 0, 0, 0, 0, 0, 0, 0, 24, 0, 0, 0, 34, 0, 0, 0]
    ++ [0, 0, 1, 0, 0, 0, 0, 0, 0, 0]
    ++ [5, 0]

/-- The overlay that decoding overlayBytesC7W under mgrTis1 produces. -/
def overlayC7W : Overlay :=
  { width := 1, height := 1, tilesetName := strBytes ("T"), uniqueTileCount := 0,
    movementType := 0, tilemapOffset := 24, tileIndexLookupOffset := 34,
    tileIndexLookup := [5],
    tilemaps := [{ start := 0, count := 1, secondary := 0, mask := 0, unknown := [0, 0, 0] }],
    tis := some (Tis.new 1) }

/-- Witness for the amended C7: decoding overlayBytesC7W under mgrTis1
succeeds with one tilemap entry of count one against one declared tile; the
sum reaches the tile count and the empty prefix stays below it. -/
theorem c7_tilemap_counts_cover_tilecount_witness :
    (Tis.new 1).tileCount ≤ (overlayC7W.tilemaps.map (fun tm => tm.count)).sum
    ∧ ∀ k, k < overlayC7W.tilemaps.length →
        ((overlayC7W.tilemaps.take k).map (fun tm => tm.count)).sum < (Tis.new 1).tileCount :=
  c7_tilemap_counts_cover_tilecount mgrTis1 (Cursor.new overlayBytesC7W)
    ((Cursor.new overlayBytesC7W).setPosition 24) overlayC7W (Tis.new 1) rfl rfl

/-- File entry of a BIFF archive, per src/types/bif/bif.rs; the data field is
filled by a later pass over the archive. -/
structure FileEntry where
  locator : Nat
  offset : Nat
  size : Nat
  rtype : Nat
  unknown : Nat
  data : List Nat
deriving Repr, DecidableEq

/-- Reading a file entry, modelling FileEntry.fromCursor; data starts
empty. -/
def FileEntry.fromCursor (c : Cursor) : Except String (FileEntry × Cursor) := do
  let (locator, c) ← c.readU32
  let (offset, c) ← c.readU32
  let (size, c) ← c.readU32
  let (rtype, c) ← c.readU16
  let (unknown, c) ← c.readU16
  .ok ({ locator := locator, offset := offset, size := size, rtype := rtype,
         unknown := unknown, data := [] }, c)

/-- Low fourteen bits of a file entry locator, modelling FileEntry.index. -/
def FileEntry.index (e : FileEntry) : Nat := ReadValue e.locator 14 0

/-- Tileset entry of a BIFF archive, per src/types/bif/bif.rs. -/
structure TilesetEntry where
  locator : Nat
  offset : Nat
  tileCount : Nat
  tileSize : Nat
  rtype : Nat
  unknown : Nat
  data : Option Tis
deriving Repr, DecidableEq

/-- Reading a tileset entry, modelling TilesetEntry.fromCursor; data starts
absent. -/
def TilesetEntry.fromCursor (c : Cursor) : Except String (TilesetEntry × Cursor) := do
  let (locator, c) ← c.readU32
  let (offset, c) ← c.readU32
  let (tileCount, c) ← c.readU32
  let (tileSize, c) ← c.readU32
  let (rtype, c) ← c.readU16
  let (unknown, c) ← c.readU16
  .ok ({ locator := locator, offset := offset, tileCount := tileCount,
         tileSize := tileSize, rtype := rtype, unknown := unknown, data := none }, c)

/-- Bits fourteen to nineteen of a tileset entry locator, modelling
TilesetEntry.index. -/
def TilesetEntry.index (e : TilesetEntry) : Nat := ReadValue e.locator 6 14

/-- BIFF archive of src/types/bif/bif.rs. -/
structure Bif where
  identity : Identity
  fileCount : Nat
  tilesetCount : Nat
  offset : Nat
  fileEntries : List FileEntry
  tilesetEntries : List TilesetEntry
deriving Repr, DecidableEq

/-- Payload pass over the file entries of Bif.fromCursor: for each entry in
order, seek to its offset and read size bytes into its data field. -/
def readFileData : Cursor → List FileEntry → Except String (List FileEntry × Cursor)
  | c, [] => .ok ([], c)
  | c, e :: rest => do
    let c := c.setPosition e.offset
    let (bytes, c) ← c.readBytes e.size
    let (rest2, c) ← readFileData c rest
    .ok ({ e with data := bytes } :: rest2, c)

/-- Payload pass over the tileset entries of Bif.fromCursor: for each entry
in order, seek to its offset and read its declared tile count into a fresh
Tis. -/
def readTilesetData : Cursor → List TilesetEntry → Except String (List TilesetEntry × Cursor)
  | c, [] => .ok ([], c)
  | c, e :: rest => do
    let c := c.setPosition e.offset
    let (tis, c) ← (Tis.new e.tileCount).read c
    let (rest2, c) ← readTilesetData c rest
    .ok ({ e with data := some tis } :: rest2, c)

/-- Reading a BIFF archive, modelling Bif.fromCursor: identity (read, not
validated), the two counts and the entry offset (the source reads the entry
tables in place directly after the header without seeking to that offset),
the file and tileset entry tables, then the two payload passes. -/
def Bif.fromCursor (c : Cursor) : Except String (Bif × Cursor) := do
  let (identity, c) ← Identity.fromCursor c
  let (fileCount, c) ← c.readU32
  let (tilesetCount, c) ← c.readU32
  let (offset, c) ← c.readU32
  let (fileEntries, c) ← readN FileEntry.fromCursor fileCount c
  let (tilesetEntries, c) ← readN TilesetEntry.fromCursor tilesetCount c
  let (fileEntries, c) ← readFileData c fileEntries
  let (tilesetEntries, c) ← readTilesetData c tilesetEntries
  .ok ({ identity := identity, fileCount := fileCount, tilesetCount := tilesetCount,
         offset := offset, fileEntries := fileEntries,
         tilesetEntries := tilesetEntries }, c)

/-- Compressed single-stream BIFC file of src/types/bif/bifc.rs. -/
structure Bifc where
  identity : Identity
  fileNameLength : Nat
  fileName : List Nat
  uncompressedLength : Nat
  compressedLength : Nat
  compressedData : List Nat
deriving Repr, DecidableEq

/-- Reading a BIFC header and its compressed payload, modelling
Bifc.fromCursor: identity, filename length, the filename without its
terminating NUL, a one-byte skip for that NUL, the two declared lengths, and
compressedLength bytes of compressed data.  (The Nat subtraction in the
filename length mirrors the u32 arithmetic for the nonzero lengths the format
carries.) -/
def Bifc.fromCursor (c : Cursor) : Except String (Bifc × Cursor) := do
  let (identity, c) ← Identity.fromCursor c
  let (fileNameLength, c) ← c.readU32
  let (fileNameBytes, c) ← c.readBytes (fileNameLength - 1)
  let fileName := parseString fileNameBytes
  let c := c.setPosition (c.position + 1)
  let (uncompressedLength, c) ← c.readU32
  let (compressedLength, c) ← c.readU32
  let (compressedData, c) ← c.readBytes compressedLength
  .ok ({ identity := identity, fileNameLength := fileNameLength, fileName := fileName,
         uncompressedLength := uncompressedLength, compressedLength := compressedLength,
         compressedData := compressedData }, c)

/-- Conversion of a BIFC to a plain BIFF, modelling Bifc.toBif: inflate the
compressed data (zlib is an external collaborator, passed in as a function)
and decode whatever it returns as a BIFF.  No comparison against the declared
uncompressed length takes place. -/
def Bifc.toBif (inflate : List Nat → Except String (List Nat)) (b : Bifc) :
    Except String Bif :=
  match inflate b.compressedData with
  | .error e => .error e
  | .ok decompressedData =>
    match Bif.fromCursor (Cursor.new decompressedData) with
    | .error e => .error e
    | .ok (bf, _) => .ok bf

/-- C8 as amended. The BIFC to BIFF conversion never validates the declared
uncompressed length: its result is entirely independent of that header field,
succeeding or failing purely on the inflater result and the BIFF decode. -/
theorem c8_toBif_ignores_declared_length (inflate : List Nat → Except String (List Nat))
    (b : Bifc) (n : Nat) :
    Bifc.toBif inflate { b with uncompressedLength := n } = Bifc.toBif inflate b := rfl

/-- Byte image of an empty, well-formed BIFF archive, twenty bytes long. -/
def biffEmptyBytes : List Nat :=
  strBytes ("BIFF") ++ strBytes ("V1  ") ++ [0, 0, 0, 0] ++ [0, 0, 0, 0] ++ [20, 0, 0, 0]

/-- Inflater that expands anything to the twenty-byte empty BIFF. -/
def inflateC8 : List Nat → Except String (List Nat) := fun _ => .ok biffEmptyBytes

/-- BIFC whose header declares an uncompressed length of 999. -/
def bifcC8 : Bifc :=
  { identity := { signature := strBytes ("BIF "), version := strBytes ("V1.0") },
    fileNameLength := 1, fileName := [], uncompressedLength := 999,
    compressedLength := 0, compressedData := [] }

/-- C8 counterexample. Claim: when the inflated length differs from the
declared uncompressed length the conversion fails with a Corrupt error.  Here
the inflater yields twenty bytes against a declared length of 999, and the
conversion still succeeds, returning the decoded BIFF. -/
theorem c8_toBif_accepts_length_mismatch :
    (inflateC8 bifcC8.compressedData).toOption.map List.length = some 20
    ∧ bifcC8.uncompressedLength = 999
    ∧ (20 : Nat) ≠ 999
    ∧ (Bifc.toBif inflateC8 bifcC8).toOption.map (fun bf => (bf.fileCount, bf.tilesetCount))
        = some (0, 0) := by
  exact ⟨rfl, rfl, by decide, rfl⟩

/-- BIF entry of a KEY file, per src/types/key.rs; the fileName is filled by
a later pass. -/
structure BifEntry where
  fileName : List Nat
  fileLength : Nat
  fileNameOffset : Nat
  fileNameLength : Nat
  locatorBits : Nat
deriving Repr, DecidableEq

/-- Reading a BIF entry, modelling BifEntry.fromCursor; fileName starts
empty. -/
def BifEntry.fromCursor (c : Cursor) : Except String (BifEntry × Cursor) := do
  let (fileLength, c) ← c.readU32
  let (fileNameOffset, c) ← c.readU32
  let (fileNameLength, c) ← c.readU16
  let (locatorBits, c) ← c.readU16
  .ok ({ fileName := [], fileLength := fileLength, fileNameOffset := fileNameOffset,
         fileNameLength := fileNameLength, locatorBits := locatorBits }, c)

/-- Reading a resource entry, modelling ResourceEntry.fromCursor. -/
def ResourceEntry.fromCursor (c : Cursor) : Except String (ResourceEntry × Cursor) := do
  let (name, c) ← c.readResRef
  let (rtype, c) ← c.readU16
  let (locator, c) ← c.readU32
  .ok ({ name := name, rtype := rtype, locator := locator }, c)

/-- KEY catalog of src/types/key.rs. -/
structure Key where
  identity : Identity
  bifCount : Nat
  resourceCount : Nat
  bifOffset : Nat
  resourceOffset : Nat
  bifEntries : List BifEntry
  resourceEntries : List ResourceEntry
deriving Repr, DecidableEq

/-- Filename pass of Key.fromCursor: for each BIF entry in order, seek to its
filename offset, read its declared filename length in bytes and store the
parsed name in the entry. -/
def readBifNames : Cursor → List BifEntry → Except String (List BifEntry × Cursor)
  | c, [] => .ok ([], c)
  | c, e :: rest => do
    let c := c.setPosition e.fileNameOffset
    let (nameBytes, c) ← c.readBytes e.fileNameLength
    let (rest2, c) ← readBifNames c rest
    .ok ({ e with fileName := parseString nameBytes } :: rest2, c)

/-- Reading a KEY catalog, modelling Key.fromCursor: identity (read, not
validated), the two counts and two offsets, the BIF entry table at its
offset, the resource entry table at its offset, then the filename pass. -/
def Key.fromCursor (c : Cursor) : Except String (Key × Cursor) := do
  let (identity, c) ← Identity.fromCursor c
  let (bifCount, c) ← c.readU32
  let (resourceCount, c) ← c.readU32
  let (bifOffset, c) ← c.readU32
  let (resourceOffset, c) ← c.readU32
  let c := c.setPosition bifOffset
  let (bifEntries, c) ← readN BifEntry.fromCursor bifCount c
  let c := c.setPosition resourceOffset
  let (resourceEntries, c) ← readN ResourceEntry.fromCursor resourceCount c
  let (bifEntries, c) ← readBifNames c bifEntries
  .ok ({ identity := identity, bifCount := bifCount, resourceCount := resourceCount,
         bifOffset := bifOffset, resourceOffset := resourceOffset,
         bifEntries := bifEntries, resourceEntries := resourceEntries }, c)

/-- Canonical KEY filename per game, per KeyFileName of
src/platform/global.rs; the None sentinel has no entry in the map. -/
def KeyFileName : Games → Option (List Nat)
  | Games.None => none
  | Games.BaldursGate1 => some (strBytes ("Chitin.key"))
  | Games.BaldursGate1EnhancedEdition => some (strBytes ("chitin.key"))
  | Games.BaldursGate2 => some (strBytes ("CHITIN.KEY"))
  | Games.BaldursGate2EnhancedEdition => some (strBytes ("chitin.key"))
  | Games.IcewindDale1 => some (strBytes ("CHITIN.KEY"))
  | Games.IcewindDale1EnhancedEdition => some (strBytes ("chitin.key"))
  | Games.IcewindDale2 => some (strBytes ("CHITIN.KEY"))
  | Games.PlanescapeTorment => some (strBytes ("CHITIN.KEY"))
  | Games.PlanescapeTormentEnhancedEdition => some (strBytes ("chitin.key"))

/-- Cache state of the resource manager of src/resource.rs.  File paths are
modelled as lists of path components (each a byte string); the nested hash
maps of BIF caches are flattened to a two-argument lookup, with absence in
the outer or inner map both reading as none.  The TLK cache is omitted: none
of the operations modelled here reads or writes it. -/
structure RMState where
  keys : Games → Option Key
  bifs : Games → List Nat → Option Bif
  paths : Games → Option (List Nat)

/-- File system as the resource manager sees it: a partial map from paths (as
component lists) to file contents.  Reading a missing path is the error case
of fs.read, which every caller collapses into absence. -/
structure Env where
  fs : List (List Nat) → Option (List Nat)

/-- Reading and decoding one file, modelling the ReadFromFile helper of
src/types/util/functions.rs, with the decoder passed explicitly in place of
the Readable instance; any decode error collapses to absence at every call
site (the sources match on Ok). -/
def ReadFromFile {α : Type} (env : Env) (dec : Cursor → Except String (α × Cursor))
    (path : List (List Nat)) : Option α :=
  match env.fs path with
  | none => none
  | some buffer =>
    match dec (Cursor.new buffer) with
    | .ok (v, _) => some v
    | .error _ => none

/-- Splitting a byte string on a separator byte, modelling str.split. -/
def splitOnByte (sep : Nat) : List Nat → List (List Nat)
  | [] => [[]]
  | b :: t =>
    match splitOnByte sep t with
    | h :: r => if b = sep then [] :: h :: r else (b :: h) :: r
    | [] => [[b]]

/-- Path assembly of ResourceManager.formatFilePath: look up the install
path of the game, then join it with the filename, split at backslashes when
any are present (the Rust rebuilds the path with the platform separator; the
model keeps the components). -/
def formatFilePath (g : Games) (fileName : List Nat) (s : RMState) :
    Option (List (List Nat)) :=
  match s.paths g with
  | none => none
  | some installPath =>
    if fileName.contains 92 then some (installPath :: splitOnByte 92 fileName)
    else some (installPath :: [fileName])

/-- Extension swap of ResourceManager.alternateBifExtension: when the path
ends in .bif (lower case) the last four bytes become .BIF, otherwise the last
four bytes are replaced by .bif.  The Rust takes the last four characters of
the joined path string; since the extension sits in the final component this
is modelled on the last component (the sources never call it on a path
shorter than four bytes, where the Rust slice would abort). -/
def swapBifExtension (name : List Nat) : List Nat :=
  if name.drop (name.length - 4) = strBytes (".bif")
  then name.take (name.length - 4) ++ strBytes (".BIF")
  else name.take (name.length - 4) ++ strBytes (".bif")

/-- Alternate path attempted by loadBif when the first read fails. -/
def alternateBifExtension (fp : List (List Nat)) : Option (List (List Nat)) :=
  match fp.reverse with
  | [] => none
  | lastComp :: revRest => some ((swapBifExtension lastComp :: revRest).reverse)

/-- One BIF read attempt, modelling ResourceManager.readBifFromFile: decode
the file at the path; on success cache it under the game and the original
filename and report true, otherwise leave the state unchanged and report
false. -/
def readBifFromFile (env : Env) (g : Games) (fileName : List Nat)
    (filePath : List (List Nat)) (s : RMState) : Bool × RMState :=
  match ReadFromFile env Bif.fromCursor filePath with
  | some b =>
    (true, { s with bifs := fun g2 n2 =>
        if g2 = g ∧ n2 = fileName then some b else s.bifs g2 n2 })
  | none => (false, s)

/-- KEY load with caching, modelling ResourceManager.loadKey: a cached key is
returned as is; otherwise the install path and key filename are resolved
(absence of either propagates), the file is read and decoded, a success is
inserted into the cache, and the final cache lookup is returned. -/
def loadKey (env : Env) (g : Games) (s : RMState) : Option Key × RMState :=
  match s.keys g with
  | some k => (some k, s)
  | none =>
    match s.paths g with
    | none => (none, s)
    | some installPath =>
      match KeyFileName g with
      | none => (none, s)
      | some keyFile =>
        match ReadFromFile env Key.fromCursor [installPath, keyFile] with
        | some k =>
          let s2 : RMState :=
            { s with keys := fun g2 => if g2 = g then some k else s.keys g2 }
          (s2.keys g, s2)
        | none => (none, s)

/-- BIF load with caching, modelling ResourceManager.loadBif: a cached BIF is
returned as is; otherwise the path is assembled (absence propagates), a first
read is attempted at it, a failed first attempt triggers one retry at the
extension-swapped path, and the final cache lookup under the original
filename is returned. -/
def loadBif (env : Env) (g : Games) (fileName : List Nat) (s : RMState) :
    Option Bif × RMState :=
  match s.bifs g fileName with
  | some b => (some b, s)
  | none =>
    match formatFilePath g fileName s with
    | none => (none, s)
    | some filePath =>
      let (firstOk, s1) := readBifFromFile env g fileName filePath s
      if firstOk then (s1.bifs g fileName, s1)
      else
        match alternateBifExtension filePath with
        | none => (none, s1)
        | some filePath2 =>
          let (_, s2) := readBifFromFile env g fileName filePath2 s1
          (s2.bifs g fileName, s2)

/-- Two-complement cast of an i16 resource type to u16, as in the comparison
entry.r#type == resourceType as u16 of loadResource. -/
def intToU16 (i : Int) : Nat := (i % 65536).toNat

/-- Typed resource load, modelling ResourceManager.loadResource: load the
KEY of the game, find the first resource entry matching type and name, fetch
the BIF entry the locator names, load that BIF (caching), find the file
entry whose locator index matches, and decode its payload with the decoder of
the requested type; every absence or decode error propagates as none with
the state reached so far. -/
def loadResource {α : Type} (env : Env) (dec : Cursor → Except String (α × Cursor))
    (g : Games) (resourceType : Int) (resourceName : List Nat) (s : RMState) :
    Option α × RMState :=
  match loadKey env g s with
  | (none, s1) => (none, s1)
  | (some key, s1) =>
    match key.resourceEntries.find?
        (fun e => e.rtype == intToU16 resourceType && e.name == resourceName) with
    | none => (none, s1)
    | some re =>
      match key.bifEntries.get? re.indexBifEntry with
      | none => (none, s1)
      | some be =>
        match loadBif env g be.fileName s1 with
        | (none, s2) => (none, s2)
        | (some bf, s2) =>
          match bf.fileEntries.find? (fun fe => fe.index == re.indexFile) with
          | none => (none, s2)
          | some fe =>
            match dec (Cursor.new fe.data) with
            | .ok (v, _) => (some v, s2)
            | .error _ => (none, s2)

/-- Tileset load, modelling ResourceManager.loadTileset: as loadResource but
matching the TIS type tag 1003, selecting the tileset entry by its tileset
locator index, and returning its decoded data field. -/
def loadTileset (env : Env) (g : Games) (resourceName : List Nat) (s : RMState) :
    Option Tis × RMState :=
  match loadKey env g s with
  | (none, s1) => (none, s1)
  | (some key, s1) =>
    match key.resourceEntries.find?
        (fun e => e.rtype == 1003 && e.name == resourceName) with
    | none => (none, s1)
    | some re =>
      match key.bifEntries.get? re.indexBifEntry with
      | none => (none, s1)
      | some be =>
        match loadBif env g be.fileName s1 with
        | (none, s2) => (none, s2)
        | (some bf, s2) =>
          match bf.tilesetEntries.find? (fun te => te.index == re.indexTileset) with
          | none => (none, s2)
          | some te => (te.data, s2)

/-- A cached KEY is returned unchanged. -/
theorem loadKey_cached (env : Env) (g : Games) (s : RMState) (k : Key)
    (h : s.keys g = some k) : loadKey env g s = (some k, s) := by
  unfold loadKey
  rw [h]

/-- A successful KEY load leaves the key in the cache. -/
theorem loadKey_ok (env : Env) (g : Games) (s : RMState) (k : Key) (s1 : RMState)
    (h : loadKey env g s = (some k, s1)) : s1.keys g = some k := by
  unfold loadKey at h
  cases hk : s.keys g with
  | some k0 =>
    rw [hk] at h
    obtain ⟨h1, h2⟩ := Prod.mk.injEq .. ▸ h
    subst h2
    rw [hk]
    exact h1
  | none =>
    rw [hk] at h
    dsimp only at h
    cases hp : s.paths g with
    | none =>
      rw [hp] at h
      exact absurd (Prod.mk.injEq .. ▸ h).1 (by simp)
    | some installPath =>
      rw [hp] at h
      dsimp only at h
      cases hkf : KeyFileName g with
      | none =>
        rw [hkf] at h
        exact absurd (Prod.mk.injEq .. ▸ h).1 (by simp)
      | some keyFile =>
        rw [hkf] at h
        dsimp only at h
        cases hrf : ReadFromFile env Key.fromCursor [installPath, keyFile] with
        | none =>
          rw [hrf] at h
          exact absurd (Prod.mk.injEq .. ▸ h).1 (by simp)
        | some k0 =>
          rw [hrf] at h
          dsimp only at h
          obtain ⟨h1, h2⟩ := Prod.mk.injEq .. ▸ h
          subst h2
          simpa using h1

/-- A cached BIF is returned unchanged. -/
theorem loadBif_cached (env : Env) (g : Games) (fn : List Nat) (s : RMState) (b : Bif)
    (h : s.bifs g fn = some b) : loadBif env g fn s = (some b, s) := by
  unfold loadBif
  rw [h]

/-- Reduction of a successful read attempt. -/
theorem readBifFromFile_some (env : Env) (g : Games) (fn : List Nat)
    (fp : List (List Nat)) (s : RMState) (b : Bif)
    (h : ReadFromFile env Bif.fromCursor fp = some b) :
    readBifFromFile env g fn fp s
      = (true, { s with bifs := fun g2 n2 =>
          if g2 = g ∧ n2 = fn then some b else s.bifs g2 n2 }) := by
  unfold readBifFromFile
  rw [h]

/-- Reduction of a failed read attempt. -/
theorem readBifFromFile_none (env : Env) (g : Games) (fn : List Nat)
    (fp : List (List Nat)) (s : RMState)
    (h : ReadFromFile env Bif.fromCursor fp = none) :
    readBifFromFile env g fn fp s = (false, s) := by
  unfold readBifFromFile
  rw [h]

/-- A successful BIF load leaves the BIF in the cache under the original
filename and never touches the KEY cache or the install paths. -/
theorem loadBif_ok (env : Env) (g : Games) (fn : List Nat) (s : RMState) (b : Bif)
    (s1 : RMState) (h : loadBif env g fn s = (some b, s1)) :
    s1.bifs g fn = some b ∧ s1.keys = s.keys := by
  unfold loadBif at h
  cases hc : s.bifs g fn with
  | some b0 =>
    rw [hc] at h
    obtain ⟨h1, h2⟩ := Prod.mk.injEq .. ▸ h
    subst h2
    exact ⟨hc.trans h1, rfl⟩
  | none =>
    rw [hc] at h
    dsimp only at h
    cases hfp : formatFilePath g fn s with
    | none =>
      rw [hfp] at h
      exact absurd (Prod.mk.injEq .. ▸ h).1 (by simp)
    | some filePath =>
      rw [hfp] at h
      dsimp only at h
      cases hr1 : ReadFromFile env Bif.fromCursor filePath with
      | some bf =>
        rw [readBifFromFile_some env g fn filePath s bf hr1] at h
        simp only [if_true] at h
        obtain ⟨h1, h2⟩ := Prod.mk.injEq .. ▸ h
        simp only [and_self, if_pos] at h1
        subst h2
        refine ⟨?_, rfl⟩
        simpa using h1
      | none =>
        rw [readBifFromFile_none env g fn filePath s hr1] at h
        simp only [Bool.false_eq_true, if_false] at h
        cases halt : alternateBifExtension filePath with
        | none =>
          rw [halt] at h
          exact absurd (Prod.mk.injEq .. ▸ h).1 (by simp)
        | some filePath2 =>
          rw [halt] at h
          dsimp only at h
          cases hr2 : ReadFromFile env Bif.fromCursor filePath2 with
          | some bf2 =>
            rw [readBifFromFile_some env g fn filePath2 s bf2 hr2] at h
            dsimp only at h
            obtain ⟨h1, h2⟩ := Prod.mk.injEq .. ▸ h
            simp only [and_self, if_pos] at h1
            subst h2
            refine ⟨?_, rfl⟩
            simpa using h1
          | none =>
            rw [readBifFromFile_none env g fn filePath2 s hr2] at h
            dsimp only at h
            obtain ⟨h1, h2⟩ := Prod.mk.injEq .. ▸ h
            rw [hc] at h1
            exact absurd h1 (by simp)

/-- Core of cache idempotence: when a load succeeds, running the same load
again from the state it produced returns the same value and the same state. -/
theorem loadResource_idem {α : Type} (env : Env) (dec : Cursor → Except String (α × Cursor))
    (g : Games) (rt : Int) (n : List Nat) (s : RMState) (v : α) (s1 : RMState)
    (h : loadResource env dec g rt n s = (some v, s1)) :
    loadResource env dec g rt n s1 = (some v, s1) := by
  unfold loadResource at h
  rcases hk : loadKey env g s with ⟨ko, sA⟩
  rw [hk] at h
  try dsimp only at h
  cases ko with
  | none => exact absurd (Prod.mk.injEq .. ▸ h).1 (by simp)
  | some key =>
  try dsimp only at h
  have hkey := loadKey_ok env g s key sA hk
  cases hf : key.resourceEntries.find?
      (fun e => e.rtype == intToU16 rt && e.name == n) with
  | none =>
    rw [hf] at h
    exact absurd (Prod.mk.injEq .. ▸ h).1 (by simp)
  | some re =>
  rw [hf] at h
  try dsimp only at h
  cases hg : key.bifEntries.get? re.indexBifEntry with
  | none =>
    rw [hg] at h
    exact absurd (Prod.mk.injEq .. ▸ h).1 (by simp)
  | some be =>
  rw [hg] at h
  try dsimp only at h
  rcases hb : loadBif env g be.fileName sA with ⟨bo, sB⟩
  rw [hb] at h
  try dsimp only at h
  cases bo with
  | none => exact absurd (Prod.mk.injEq .. ▸ h).1 (by simp)
  | some bf =>
  try dsimp only at h
  obtain ⟨hbif, hbkeys⟩ := loadBif_ok env g be.fileName sA bf sB hb
  cases hfe : bf.fileEntries.find? (fun fe => fe.index == re.indexFile) with
  | none =>
    rw [hfe] at h
    exact absurd (Prod.mk.injEq .. ▸ h).1 (by simp)
  | some fe =>
  rw [hfe] at h
  try dsimp only at h
  cases hdec : dec (Cursor.new fe.data) with
  | error e =>
    rw [hdec] at h
    try dsimp only at h
    exact absurd (Prod.mk.injEq .. ▸ h).1 (by simp)
  | ok p =>
  rw [hdec] at h
  obtain ⟨v2, cx⟩ := p
  try dsimp only at h
  obtain ⟨h1, h2⟩ := Prod.mk.injEq .. ▸ h
  subst h2
  have hv : v2 = v := by simpa using h1
  subst hv
  unfold loadResource
  rw [loadKey_cached env g sB key (hbkeys ▸ hkey)]
  try dsimp only
  rw [hf]
  try dsimp only
  rw [hg]
  try dsimp only
  rw [loadBif_cached env g be.fileName sB bf hbif]
  try dsimp only
  rw [hfe]
  try dsimp only
  rw [hdec]

/-- C9. When load_resource returns a value, an immediately repeated call with
the same arguments over the unchanged file system returns the same value and
leaves the entire cache state — in particular the cached KEY with its BIF and
resource entry lists and the cached BIFs with their file entry lists — 
exactly as the first call left it. -/
theorem c9_loadResource_idempotent {α : Type} (env : Env)
    (dec : Cursor → Except String (α × Cursor)) (g : Games) (rt : Int)
    (n : List Nat) (s : RMState)
    (h : (loadResource env dec g rt n s).1.isSome = true) :
    loadResource env dec g rt n (loadResource env dec g rt n s).2
      = loadResource env dec g rt n s := by
  rcases hr : loadResource env dec g rt n s with ⟨vo, s1⟩
  rw [hr] at h
  cases vo with
  | none => simp at h
  | some v => exact loadResource_idem env dec g rt n s v s1 hr

/-- Byte image of a KEY catalog with one BIF entry (filename b at offset 50)
and one resource entry (name A, type 1, locator 0). -/
def keyBytesW : List Nat :=
  strBytes ("KEY ") ++ strBytes ("V1  ")
    ++ [1, 0, 0, 0] ++ [1, 0, 0, 0] ++ [24, 0, 0, 0] ++ [36, 0, 0, 0]
    ++ [0, 0, 0, 0] ++ [50, 0, 0, 0] ++ [2, 0] ++ [0, 0]
    ++ [65, 0, 0, 0, 0, 0, 0, 0] ++ [1, 0] ++ [0, 0, 0, 0]
    ++ [98, 0]

/-- Byte image of a BIFF archive with one file entry whose one-byte payload
at offset 36 is the byte 7. -/
def bifBytesW : List Nat :=
  strBytes ("BIFF") ++ strBytes ("V1  ")
    ++ [1, 0, 0, 0] ++ [0, 0, 0, 0] ++ [20, 0, 0, 0]
    ++ [0, 0, 0, 0] ++ [36, 0, 0, 0] ++ [1, 0, 0, 0] ++ [0, 0] ++ [0, 0]
    ++ [7]

/-- Install path component for the cache witness. -/
def ipW : List Nat := strBytes ("install")

/-- File system holding the KEY at install slash Chitin.key and the BIF at
install slash b. -/
def envW : Env :=
  { fs := fun p =>
      if p = [ipW, strBytes ("Chitin.key")] then some keyBytesW
      else if p = [ipW, strBytes ("b")] then some bifBytesW
      else none }

/-- Fresh manager state knowing only the BaldursGate1 install path. -/
def s0W : RMState :=
  { keys := fun _ => none, bifs := fun _ _ => none,
    paths := fun g => if g = Games.BaldursGate1 then some ipW else none }

/-- Decoder instantiation for the witness: returns the payload bytes. -/
def decW : Cursor → Except String (List Nat × Cursor) := fun c => .ok (c.data, c)

/-- Witness for C9: loading resource A of type 1 for BaldursGate1 from the
fresh state succeeds (the KEY and the BIF are read from the modelled file
system and cached), and repeating the call returns the identical value and
state. -/
theorem c9_loadResource_idempotent_witness :
    (loadResource envW decW Games.BaldursGate1 1 (strBytes ("A")) s0W).1.isSome = true
    ∧ loadResource envW decW Games.BaldursGate1 1 (strBytes ("A"))
        (loadResource envW decW Games.BaldursGate1 1 (strBytes ("A")) s0W).2
      = loadResource envW decW Games.BaldursGate1 1 (strBytes ("A")) s0W :=
  ⟨rfl, c9_loadResource_idempotent envW decW Games.BaldursGate1 1 (strBytes ("A")) s0W rfl⟩

/-- A successful byte read shortens the remaining buffer by one. -/
theorem readU8_rest {c c1 : Cursor} {b : Nat} (h : c.readU8 = .ok (b, c1)) :
    c1.rest.length + 1 = c.rest.length := by
  rcases c with ⟨data, pos, rest⟩
  cases rest with
  | nil => exact absurd h (by simp [Cursor.readU8])
  | cons x t =>
    simp only [Cursor.readU8] at h
    obtain ⟨h1, h2⟩ := Prod.mk.injEq .. ▸ Except.ok.injEq .. ▸ h
    rw [← h2]
    rfl

/-- A successful u16 read shortens the remaining buffer by two. -/
theorem readU16_rest {c c1 : Cursor} {b : Nat} (h : c.readU16 = .ok (b, c1)) :
    c1.rest.length + 2 = c.rest.length := by
  unfold Cursor.readU16 at h
  simp only [bind, Except.bind] at h
  cases h1 : c.readU8 with
  | error e => rw [h1] at h; exact Except.noConfusion h
  | ok p =>
  rw [h1] at h; obtain ⟨b0, cA⟩ := p; dsimp only at h
  cases h2 : cA.readU8 with
  | error e => rw [h2] at h; exact Except.noConfusion h
  | ok q =>
  rw [h2] at h; obtain ⟨b1, cB⟩ := q; dsimp only at h
  obtain ⟨h3, h4⟩ := Prod.mk.injEq .. ▸ Except.ok.injEq .. ▸ h
  have e1 := readU8_rest h1
  have e2 := readU8_rest h2
  rw [← h4]
  omega

/-- A successful n byte read shortens the remaining buffer by n. -/
theorem readBytes_rest {n : Nat} : ∀ {c c1 : Cursor} {bs : List Nat},
    c.readBytes n = .ok (bs, c1) → c1.rest.length + n = c.rest.length := by
  induction n with
  | zero =>
    intro c c1 bs h
    unfold Cursor.readBytes at h
    obtain ⟨h1, h2⟩ := Prod.mk.injEq .. ▸ Except.ok.injEq .. ▸ h
    rw [← h2]
    rfl
  | succ n ih =>
    intro c c1 bs h
    unfold Cursor.readBytes at h
    simp only [bind, Except.bind] at h
    cases h1 : c.readU8 with
    | error e => rw [h1] at h; exact Except.noConfusion h
    | ok p =>
    rw [h1] at h; obtain ⟨b, cA⟩ := p; dsimp only at h
    cases h2 : cA.readBytes n with
    | error e => rw [h2] at h; exact Except.noConfusion h
    | ok q =>
    rw [h2] at h; obtain ⟨bs1, cB⟩ := q; dsimp only at h
    obtain ⟨h3, h4⟩ := Prod.mk.injEq .. ▸ Except.ok.injEq .. ▸ h
    have e1 := readU8_rest h1
    have e2 := ih h2
    rw [← h4]
    omega

/-- A successful tilemap entry read consumes exactly ten bytes. -/
theorem tilemap_rest {c c1 : Cursor} {tm : Tilemap}
    (h : Tilemap.fromCursor c = .ok (tm, c1)) :
    c1.rest.length + 10 = c.rest.length := by
  unfold Tilemap.fromCursor at h
  simp only [bind, Except.bind] at h
  cases h1 : c.readU16 with
  | error e => rw [h1] at h; exact Except.noConfusion h
  | ok p1 =>
  rw [h1] at h; obtain ⟨start, cA⟩ := p1; dsimp only at h
  cases h2 : cA.readU16 with
  | error e => rw [h2] at h; exact Except.noConfusion h
  | ok p2 =>
  rw [h2] at h; obtain ⟨count, cB⟩ := p2; dsimp only at h
  cases h3 : cB.readU16 with
  | error e => rw [h3] at h; exact Except.noConfusion h
  | ok p3 =>
  rw [h3] at h; obtain ⟨secondary, cC⟩ := p3; dsimp only at h
  cases h4 : cC.readU8 with
  | error e => rw [h4] at h; exact Except.noConfusion h
  | ok p4 =>
  rw [h4] at h; obtain ⟨mask, cD⟩ := p4; dsimp only at h
  cases h5 : cD.readBytes 3 with
  | error e => rw [h5] at h; exact Except.noConfusion h
  | ok p5 =>
  rw [h5] at h; obtain ⟨unknown, cE⟩ := p5; dsimp only at h
  obtain ⟨h6, h7⟩ := Prod.mk.injEq .. ▸ Except.ok.injEq .. ▸ h
  have e1 := readU16_rest h1
  have e2 := readU16_rest h2
  have e3 := readU16_rest h3
  have e4 := readU8_rest h4
  have e5 := readBytes_rest h5
  rw [← h7]
  omega

/-- Fuel irrelevance for the tilemap loop: any fuel beyond the remaining
buffer length gives the same result, because every iteration consumes ten
bytes of the buffer before recursing.  In particular the fuel chosen by
readTilemaps can never run out, so the fuelled recursion is exactly the while
loop of the source, which terminates by exhausting the cursor. -/
theorem readTilemapsAux_fuel (tileCount : Nat) :
    ∀ fuel1, ∀ {fuel2 tilesRead : Nat} {c : Cursor},
      c.rest.length < fuel1 → c.rest.length < fuel2 →
      readTilemapsAux tileCount fuel1 tilesRead c
        = readTilemapsAux tileCount fuel2 tilesRead c := by
  intro fuel1
  induction fuel1 with
  | zero => intro fuel2 tilesRead c hf1 hf2; omega
  | succ fuel1 ih =>
    intro fuel2 tilesRead c hf1 hf2
    cases fuel2 with
    | zero => omega
    | succ fuel2 =>
      unfold readTilemapsAux
      by_cases hlt : tilesRead < tileCount
      · rw [if_pos hlt, if_pos hlt]
        cases htm : Tilemap.fromCursor c with
        | error e => rfl
        | ok p =>
          obtain ⟨tm, c1⟩ := p
          dsimp only
          have hrest := tilemap_rest htm
          rw [@ih fuel2 (tilesRead + tm.count) c1 (by omega) (by omega)]
      · rw [if_neg hlt, if_neg hlt]
